import Mathlib

/-!
# Verification of the paper-trading ledger

A shallow embedding of `src/paper.ts` from the tradingview-alert-connector
repository, together with proofs and refutations of the specification's
claims about it.

JavaScript numbers are modelled exactly by `ENum`: an exact rational
(`num`), one of the two infinities, or `nan`.  The finite arithmetic the
ledger performs is modelled exactly (no rounding); the special values
follow the IEEE rules JavaScript uses (`nan` propagates, comparisons
involving `nan` are false, `inf * 0 = nan`, a nonzero finite number
divided by zero gives a signed infinity).  Negative zero is identified
with zero; none of the ledger's operations can tell them apart, since the
code only ever tests `=== 0`, `> 0`, `< 0`, `Math.sign` and truthiness.
-/

namespace Paper

/-- A JavaScript number value: an exact rational, `Infinity`, `-Infinity`,
or `NaN`. -/
inductive ENum where
  | num (q : ℚ)
  | inf
  | ninf
  | nan
deriving DecidableEq

namespace ENum

/-- JavaScript unary minus. -/
def neg : ENum → ENum
  | num q => num (-q)
  | inf => ninf
  | ninf => inf
  | nan => nan

instance : Neg ENum := ⟨neg⟩

/-- JavaScript `+` on numbers. -/
def add : ENum → ENum → ENum
  | nan, _ => nan
  | _, nan => nan
  | inf, ninf => nan
  | ninf, inf => nan
  | inf, _ => inf
  | _, inf => inf
  | ninf, _ => ninf
  | _, ninf => ninf
  | num a, num b => num (a + b)

instance : Add ENum := ⟨add⟩

/-- JavaScript binary `-` on numbers. -/
def sub (a b : ENum) : ENum := a.add b.neg

instance : Sub ENum := ⟨sub⟩

/-- JavaScript `*` on numbers. -/
def mul : ENum → ENum → ENum
  | nan, _ => nan
  | _, nan => nan
  | num a, num b => num (a * b)
  | num a, inf => if 0 < a then inf else if a < 0 then ninf else nan
  | num a, ninf => if 0 < a then ninf else if a < 0 then inf else nan
  | inf, num b => if 0 < b then inf else if b < 0 then ninf else nan
  | ninf, num b => if 0 < b then ninf else if b < 0 then inf else nan
  | inf, inf => inf
  | inf, ninf => ninf
  | ninf, inf => ninf
  | ninf, ninf => inf

instance : Mul ENum := ⟨mul⟩

/-- JavaScript `/` on numbers (division by zero gives a signed infinity,
`0/0` gives `nan`; the zero denominator is `+0` since negative zero is
identified with zero). -/
def div : ENum → ENum → ENum
  | nan, _ => nan
  | _, nan => nan
  | num a, num b =>
      if b = 0 then (if 0 < a then inf else if a < 0 then ninf else nan)
      else num (a / b)
  | num _, inf => num 0
  | num _, ninf => num 0
  | inf, num b => if b < 0 then ninf else inf
  | ninf, num b => if b < 0 then inf else ninf
  | inf, inf => nan
  | inf, ninf => nan
  | ninf, inf => nan
  | ninf, ninf => nan

instance : Div ENum := ⟨div⟩

/-- JavaScript `<`. -/
def jsLt : ENum → ENum → Bool
  | nan, _ => false
  | _, nan => false
  | num a, num b => decide (a < b)
  | num _, inf => true
  | num _, ninf => false
  | inf, _ => false
  | ninf, inf => true
  | ninf, num _ => true
  | ninf, ninf => false

/-- JavaScript `<=`. -/
def jsLe : ENum → ENum → Bool
  | nan, _ => false
  | _, nan => false
  | num a, num b => decide (a ≤ b)
  | num _, inf => true
  | num _, ninf => false
  | inf, inf => true
  | inf, _ => false
  | ninf, _ => true

/-- JavaScript `>`. -/
def jsGt (a b : ENum) : Bool := jsLt b a

/-- JavaScript `===` on numbers (`NaN` equals nothing). -/
def jsEq : ENum → ENum → Bool
  | nan, _ => false
  | _, nan => false
  | num a, num b => decide (a = b)
  | inf, inf => true
  | ninf, ninf => true
  | _, _ => false

/-- JavaScript `Math.sign`. -/
def sign : ENum → ENum
  | nan => nan
  | inf => num 1
  | ninf => num (-1)
  | num a => if 0 < a then num 1 else if a < 0 then num (-1) else num 0

/-- JavaScript `Math.abs`. -/
def abs : ENum → ENum
  | nan => nan
  | inf => inf
  | ninf => inf
  | num a => num |a|

/-- JavaScript `Math.min` of two numbers. -/
def jsMin (a b : ENum) : ENum :=
  if a = nan ∨ b = nan then nan
  else if a.jsLe b then a else b

/-- JavaScript truthiness of a number: `0` and `NaN` are falsy. -/
def truthy : ENum → Bool
  | nan => false
  | num a => decide (a ≠ 0)
  | _ => true

/-- Is the value a finite number (`Number.isFinite`)? -/
def isFinite : ENum → Bool
  | num _ => true
  | _ => false

end ENum

/-- JavaScript truthiness of a possibly-undefined number (`undefined` is
falsy). -/
def jsNumTruthy : Option ENum → Bool
  | some v => v.truthy
  | none => false

/-- Order direction, `type Side = "buy" | "sell"`. -/
inductive Side where
  | buy
  | sell
deriving DecidableEq

/-- Position direction tag, `"long" | "short" | "flat"`. -/
inductive PosSide where
  | long
  | short
  | flat
deriving DecidableEq

/-- `type Market = string`. -/
abbrev Market := String

/-- `interface Fill` from `paper.ts` (the `ts` field holds the caller's
clock reading, `Date.now()`). -/
structure Fill where
  ts : ENum
  market : Market
  side : Side
  qty : ENum
  price : ENum
  notional : ENum
  leverage : ENum
deriving DecidableEq

/-- `interface Position` from `paper.ts`. -/
structure Position where
  side : PosSide
  base : ENum
  entry : ENum
  leverage : ENum
  realizedPnl : ENum
deriving DecidableEq

/-- Startup configuration: `PAPER_BASE_USDC` (default 10000) and
`PAPER_DEFAULT_LEVERAGE` (default 2). -/
structure Config where
  startUSDC : ENum
  defaultLev : ENum

/-- `interface State` from `paper.ts`: the single process-wide ledger.
The two `Record<Market, _>` maps are modelled as total functions into
`Option`, absent keys being `none`. -/
structure State where
  usdc : ENum
  lastPrice : Market → Option ENum
  positions : Market → Option Position
  trades : List Fill

/-- Store a price under a market key (`state.lastPrice[market] = price`). -/
def setLastPrice (s : State) (market : Market) (p : ENum) : State :=
  { s with lastPrice := fun m => if m = market then some p else s.lastPrice m }

/-- Store a position under a market key
(`state.positions[market] = pos`). -/
def setPosition (s : State) (market : Market) (p : Position) : State :=
  { s with positions := fun m => if m = market then some p else s.positions m }

/-- The ledger at process start:
`{ balances:{USDC:startUSDC}, lastPrice:{}, positions:{}, trades:[] }`. -/
def initialState (cfg : Config) : State :=
  ⟨cfg.startUSDC, fun _ => none, fun _ => none, []⟩

/-- `mark(market, price?)`: a truthy supplied price is stored, then the
stored value (possibly absent) is returned together with the new state. -/
def mark (s : State) (market : Market) (price : Option ENum) :
    Option ENum × State :=
  match price with
  | some p =>
    if p.truthy then
      let s' := setLastPrice s market p
      (s'.lastPrice market, s')
    else (s.lastPrice market, s)
  | none => (s.lastPrice market, s)

/-- `ensurePos(market)`: return the market's position, lazily creating a
flat one with the configured default leverage. -/
def ensurePos (cfg : Config) (s : State) (market : Market) :
    Position × State :=
  match s.positions market with
  | some p => (p, s)
  | none =>
    let p : Position :=
      ⟨PosSide.flat, ENum.num 0, ENum.num 0, cfg.defaultLev, ENum.num 0⟩
    (p, setPosition s market p)

/-- The new contents of the market's position after a fill: the body of
`applyFill(market, side, qty, price, lev)` from `paper.ts`, translated
branch for branch (including the `!==` sign test on the reduce path),
as a pure function of the pre-fill position and the fill arguments. -/
def fillPos (pos : Position) (side : Side) (qty price lev : ENum) :
    Position :=
  let dir : ENum := if side = Side.buy then ENum.num 1 else ENum.num (-1)
  let baseDelta := dir * qty
  if pos.base.jsEq (ENum.num 0) || pos.base.sign.jsEq baseDelta.sign then
    let oldNotional := pos.base.abs * pos.entry
    let newBase := pos.base + baseDelta
    let addNotional := baseDelta.abs * price
    let newEntry :=
      if !(newBase.jsEq (ENum.num 0)) then
        (oldNotional + addNotional) / newBase.abs
      else ENum.num 0
    let newSide :=
      if newBase.jsGt (ENum.num 0) then PosSide.long
      else if newBase.jsLt (ENum.num 0) then PosSide.short
      else PosSide.flat
    ⟨newSide, newBase, newEntry, lev, pos.realizedPnl⟩
  else
    let reduce := (pos.base.abs.jsMin baseDelta.abs) * baseDelta.sign
    let reducedAbs := reduce.abs
    let pnlPerUnit :=
      if pos.base.jsGt (ENum.num 0) then price - pos.entry
      else pos.entry - price
    let newPnl := pos.realizedPnl + pnlPerUnit * reducedAbs
    let newBase := pos.base + baseDelta
    if newBase.jsEq (ENum.num 0) then
      ⟨PosSide.flat, newBase, ENum.num 0, pos.leverage, newPnl⟩
    else if !(newBase.sign.jsEq reduce.sign) then
      ⟨if newBase.jsGt (ENum.num 0) then PosSide.long else PosSide.short,
       newBase, price, lev, newPnl⟩
    else
      ⟨pos.side, newBase, pos.entry, pos.leverage, newPnl⟩

/-- `applyFill(market, side, qty, price, lev)` from `paper.ts`: look up
(or lazily create) the position, then store its updated contents. -/
def applyFill (cfg : Config) (s : State) (market : Market) (side : Side)
    (qty price lev : ENum) : State :=
  let pr := ensurePos cfg s market
  setPosition pr.2 market (fillPos pr.1 side qty price lev)

/-- The three `throw`s of `placeOrder`, as typed rejections. -/
inductive Rejection where
  | noPrice
  | invalidQty
  | notionalLimit
deriving DecidableEq

/-- The argument object of `placeOrder` after the `Number(...)` coercions
at its boundary (absent fields are `none`). -/
structure OrderParams where
  market : Market
  order : Side
  sizeUsd : Option ENum
  size : Option ENum
  price : Option ENum
  leverage : Option ENum

/-- The success value returned by `placeOrder` (its `ok:true` object,
with the nested position snapshot flattened into fields). -/
structure OrderResult where
  market : Market
  side : Side
  qty : ENum
  price : ENum
  leverage : ENum
  posSide : PosSide
  posBase : ENum
  posEntry : ENum
  posRealizedPnl : ENum
  unrealizedPnl : ENum
  balanceUSDC : ENum
  recentTrades : List Fill
deriving DecidableEq

/-- Quantity resolution in `placeOrder`:
`sizeUsd != null ? sizeUsd / p : Number(params.size ?? 0)`. -/
def resolvedQty (params : OrderParams) (p : ENum) : ENum :=
  match params.sizeUsd with
  | some su => su / p
  | none => params.size.getD (ENum.num 0)

/-- `placeOrder(params)` from `paper.ts`.  `ts` is the caller's clock
reading (`Date.now()`).  A thrown error is `Except.error`; the second
component is the ledger state after the call, which in JavaScript is the
mutated global whether or not the call threw. -/
def placeOrder (cfg : Config) (s : State) (ts : ENum)
    (params : OrderParams) : Except Rejection OrderResult × State :=
  let lev := params.leverage.getD cfg.defaultLev
  let mres := mark s params.market params.price
  let s1 := mres.2
  if !(jsNumTruthy mres.1) then (Except.error Rejection.noPrice, s1) else
  let p := mres.1.getD (ENum.num 0)
  let qty := resolvedQty params p
  if !qty.truthy || qty.jsLe (ENum.num 0) then
    (Except.error Rejection.invalidQty, s1)
  else
  let notional := qty * p
  let maxNotional := s1.usdc * lev
  if notional.jsGt maxNotional then
    (Except.error Rejection.notionalLimit, s1)
  else
  let s2 := applyFill cfg s1 params.market params.order qty p lev
  let pos := (s2.positions params.market).getD
    ⟨PosSide.flat, ENum.num 0, ENum.num 0, cfg.defaultLev, ENum.num 0⟩
  let uPnl :=
    if !(pos.base.jsEq (ENum.num 0)) then
      (if pos.base.jsGt (ENum.num 0) then p - pos.entry else pos.entry - p) *
        pos.base.abs
    else ENum.num 0
  let fill : Fill := ⟨ts, params.market, params.order, qty, p, notional, lev⟩
  let s3 := { s2 with trades := s2.trades ++ [fill] }
  (Except.ok
    ⟨params.market, params.order, qty, p, lev, pos.side, pos.base, pos.entry,
     pos.realizedPnl, uPnl, s3.usdc, s3.trades.drop (s3.trades.length - 5)⟩,
   s3)

/-- `reset()` from `paper.ts`. -/
def reset (cfg : Config) (_s : State) : State := initialState cfg

/-! Concrete inputs used by the witnesses and counterexamples. -/

/-- The default configuration: 10000 USDC, leverage 2. -/
def cfg0 : Config := ⟨ENum.num 10000, ENum.num 2⟩

/-- A fresh ledger under the default configuration. -/
def emptyState : State := initialState cfg0

/-- A ledger whose only entry is the given position for `BTC_USD`. -/
def onePosState (pos : Position) : State :=
  ⟨ENum.num 10000, fun _ => none,
   fun m => if m = "BTC_USD" then some pos else none, []⟩

/-- Long 5 units at entry 100, leverage 2, no realized PnL. -/
def posLong5 : Position :=
  ⟨PosSide.long, ENum.num 5, ENum.num 100, ENum.num 2, ENum.num 0⟩

/-- Long 10 units at entry 100, leverage 2, no realized PnL. -/
def posLong10 : Position :=
  ⟨PosSide.long, ENum.num 10, ENum.num 100, ENum.num 2, ENum.num 0⟩

/-- A flat position carrying realized PnL 1 from earlier trades. -/
def posFlatPnl1 : Position :=
  ⟨PosSide.flat, ENum.num 0, ENum.num 0, ENum.num 2, ENum.num 1⟩

/-- A freshly created flat position (leverage 2, no realized PnL). -/
def posFlat0 : Position :=
  ⟨PosSide.flat, ENum.num 0, ENum.num 0, ENum.num 2, ENum.num 0⟩

/-- A ledger that already knows price 7 for `BTC_USD`. -/
def price7State : State :=
  ⟨ENum.num 10000,
   fun m => if m = "BTC_USD" then some (ENum.num 7) else none,
   fun _ => none, []⟩

/-- A ledger holding a position and a mark price for `ETH_USD` only. -/
def ethState : State :=
  ⟨ENum.num 10000,
   fun m => if m = "ETH_USD" then some (ENum.num 3) else none,
   fun m => if m = "ETH_USD" then some posLong5 else none, []⟩

/-- An order for `BTC_USD` that supplies a price but no quantity at all. -/
def paramsNoQty : OrderParams :=
  ⟨"BTC_USD", Side.buy, none, none, some (ENum.num 50), none⟩

/-- An order whose `sizeUsd` coerced to `Infinity`, at price 100. -/
def paramsInfUsd : OrderParams :=
  ⟨"BTC_USD", Side.buy, some ENum.inf, none, some (ENum.num 100), none⟩

/-- A plain valid order: buy 1 unit of `BTC_USD` at price 100. -/
def paramsBuy1 : OrderParams :=
  ⟨"BTC_USD", Side.buy, none, some (ENum.num 1), some (ENum.num 100), none⟩

/-! ## Computation rules for `ENum` on finite values -/

namespace ENum

@[simp] theorem num_add_num (a b : ℚ) : num a + num b = num (a + b) := rfl

@[simp] theorem num_mul_num (a b : ℚ) : num a * num b = num (a * b) := rfl

@[simp] theorem neg_num (a : ℚ) : -(num a) = num (-a) := rfl

@[simp] theorem num_sub_num (a b : ℚ) : num a - num b = num (a - b) := by
  have h : num a - num b = num (a + -b) := rfl
  rw [h, sub_eq_add_neg]

@[simp] theorem num_div_num (a b : ℚ) :
    num a / num b =
      if b = 0 then (if 0 < a then inf else if a < 0 then ninf else nan)
      else num (a / b) := rfl

@[simp] theorem abs_num (a : ℚ) : (num a).abs = num |a| := rfl

@[simp] theorem sign_num (a : ℚ) :
    (num a).sign =
      if 0 < a then num 1 else if a < 0 then num (-1) else num 0 := rfl

@[simp] theorem jsEq_num (a b : ℚ) :
    (num a).jsEq (num b) = decide (a = b) := rfl

@[simp] theorem jsLt_num (a b : ℚ) :
    (num a).jsLt (num b) = decide (a < b) := rfl

@[simp] theorem jsLe_num (a b : ℚ) :
    (num a).jsLe (num b) = decide (a ≤ b) := rfl

@[simp] theorem jsGt_num (a b : ℚ) :
    (num a).jsGt (num b) = decide (b < a) := rfl

@[simp] theorem truthy_num (a : ℚ) : (num a).truthy = decide (a ≠ 0) := rfl

@[simp] theorem jsMin_num (a b : ℚ) :
    (num a).jsMin (num b) = if a ≤ b then num a else num b := by
  simp [jsMin, jsLe]

end ENum

@[simp] theorem side_sell_eq_buy : (Side.sell = Side.buy) = False := by
  simp

@[simp] theorem side_buy_eq_sell : (Side.buy = Side.sell) = False := by
  simp

/-! ## Frame lemmas for the state operations -/

@[simp] theorem setLastPrice_usdc (s : State) (m : Market) (p : ENum) :
    (setLastPrice s m p).usdc = s.usdc := rfl

@[simp] theorem setLastPrice_positions (s : State) (m : Market) (p : ENum) :
    (setLastPrice s m p).positions = s.positions := rfl

@[simp] theorem setLastPrice_trades (s : State) (m : Market) (p : ENum) :
    (setLastPrice s m p).trades = s.trades := rfl

theorem setLastPrice_self (s : State) (m : Market) (p : ENum) :
    (setLastPrice s m p).lastPrice m = some p := by
  simp [setLastPrice]

theorem setLastPrice_ne (s : State) (m m' : Market) (p : ENum)
    (h : m' ≠ m) : (setLastPrice s m p).lastPrice m' = s.lastPrice m' := by
  simp [setLastPrice, h]

@[simp] theorem setPosition_usdc (s : State) (m : Market) (p : Position) :
    (setPosition s m p).usdc = s.usdc := rfl

@[simp] theorem setPosition_lastPrice (s : State) (m : Market)
    (p : Position) : (setPosition s m p).lastPrice = s.lastPrice := rfl

@[simp] theorem setPosition_trades (s : State) (m : Market) (p : Position) :
    (setPosition s m p).trades = s.trades := rfl

theorem setPosition_self (s : State) (m : Market) (p : Position) :
    (setPosition s m p).positions m = some p := by
  simp [setPosition]

theorem setPosition_ne (s : State) (m m' : Market) (p : Position)
    (h : m' ≠ m) : (setPosition s m p).positions m' = s.positions m' := by
  simp [setPosition, h]

@[simp] theorem mark_snd_usdc (s : State) (m : Market) (po : Option ENum) :
    ((mark s m po).2).usdc = s.usdc := by
  cases po with
  | none => rfl
  | some p => by_cases h : p.truthy <;> simp [mark, h]

@[simp] theorem mark_snd_positions (s : State) (m : Market)
    (po : Option ENum) : ((mark s m po).2).positions = s.positions := by
  cases po with
  | none => rfl
  | some p => by_cases h : p.truthy <;> simp [mark, h]

@[simp] theorem mark_snd_trades (s : State) (m : Market) (po : Option ENum) :
    ((mark s m po).2).trades = s.trades := by
  cases po with
  | none => rfl
  | some p => by_cases h : p.truthy <;> simp [mark, h]

theorem mark_snd_lastPrice_ne (s : State) (m m' : Market) (po : Option ENum)
    (h : m' ≠ m) : ((mark s m po).2).lastPrice m' = s.lastPrice m' := by
  cases po with
  | none => rfl
  | some p =>
    by_cases hp : p.truthy <;> simp [mark, hp, setLastPrice_ne _ _ _ _ h]

/-- The state `mark` returns is either untouched or has exactly the
supplied truthy price recorded. -/
theorem mark_snd_cases (s : State) (m : Market) (po : Option ENum) :
    (mark s m po).2 = s ∨
      ∃ p, po = some p ∧ p.truthy = true ∧
        (mark s m po).2 = setLastPrice s m p := by
  cases po with
  | none => exact Or.inl rfl
  | some p =>
    by_cases hp : p.truthy
    · exact Or.inr ⟨p, rfl, hp, by simp [mark, hp]⟩
    · exact Or.inl (by simp [mark, hp])

theorem ensurePos_of_some (cfg : Config) (s : State) (m : Market)
    (pos : Position) (h : s.positions m = some pos) :
    ensurePos cfg s m = (pos, s) := by
  simp [ensurePos, h]

@[simp] theorem ensurePos_snd_usdc (cfg : Config) (s : State) (m : Market) :
    ((ensurePos cfg s m).2).usdc = s.usdc := by
  unfold ensurePos
  cases h : s.positions m <;> simp [h]

@[simp] theorem ensurePos_snd_lastPrice (cfg : Config) (s : State)
    (m : Market) : ((ensurePos cfg s m).2).lastPrice = s.lastPrice := by
  unfold ensurePos
  cases h : s.positions m <;> simp [h]

@[simp] theorem ensurePos_snd_trades (cfg : Config) (s : State)
    (m : Market) : ((ensurePos cfg s m).2).trades = s.trades := by
  unfold ensurePos
  cases h : s.positions m <;> simp [h]

theorem ensurePos_snd_positions_ne (cfg : Config) (s : State)
    (m m' : Market) (h : m' ≠ m) :
    ((ensurePos cfg s m).2).positions m' = s.positions m' := by
  unfold ensurePos
  cases hp : s.positions m <;> simp [hp, setPosition_ne _ _ _ _ h]

@[simp] theorem applyFill_usdc (cfg : Config) (s : State) (m : Market)
    (sd : Side) (q p lv : ENum) :
    (applyFill cfg s m sd q p lv).usdc = s.usdc := by
  simp [applyFill]

@[simp] theorem applyFill_lastPrice (cfg : Config) (s : State) (m : Market)
    (sd : Side) (q p lv : ENum) :
    (applyFill cfg s m sd q p lv).lastPrice = s.lastPrice := by
  simp [applyFill]

@[simp] theorem applyFill_trades (cfg : Config) (s : State) (m : Market)
    (sd : Side) (q p lv : ENum) :
    (applyFill cfg s m sd q p lv).trades = s.trades := by
  simp [applyFill]

theorem applyFill_positions_ne (cfg : Config) (s : State) (m m' : Market)
    (sd : Side) (q p lv : ENum) (h : m' ≠ m) :
    (applyFill cfg s m sd q p lv).positions m' = s.positions m' := by
  simp [applyFill, setPosition_ne _ _ _ _ h, ensurePos_snd_positions_ne _ _ _ _ h]

/-- After a fill the stored position for the market is exactly `fillPos`
of the looked-up position. -/
theorem applyFill_positions_self (cfg : Config) (s : State) (m : Market)
    (sd : Side) (q p lv : ENum) :
    (applyFill cfg s m sd q p lv).positions m =
      some (fillPos (ensurePos cfg s m).1 sd q p lv) := by
  simp [applyFill, setPosition_self]

/-- `applyFill` on a market that already has a position. -/
theorem applyFill_positions_of_some (cfg : Config) (s : State) (m : Market)
    (sd : Side) (q p lv : ENum) (pos : Position)
    (h : s.positions m = some pos) :
    (applyFill cfg s m sd q p lv).positions m =
      some (fillPos pos sd q p lv) := by
  rw [applyFill_positions_self, ensurePos_of_some cfg s m pos h]

/-! ## Claim C6: same-direction fills average the entry price -/

/-- Claim C6: for every position and every fill in the same direction as
the existing exposure (or opening from flat), the new entry price is the
notional-weighted average `(|base| * entry + |delta| * price) / |base + delta|`,
defined as 0 when the new base is 0; the base becomes `base + delta`, the
side is recomputed from the new base, and the order's leverage is stored.
Confirmed against `applyFill`. -/
theorem applyFill_same_direction_avg_entry (cfg : Config) (s : State)
    (m : Market) (sd : Side) (pos : Position) (lv : ENum) (q p b e d : ℚ)
    (hpos : s.positions m = some pos) (hb : pos.base = ENum.num b)
    (he : pos.entry = ENum.num e)
    (hd : d = if sd = Side.buy then q else -q)
    (hdir : b = 0 ∨ (0 < b ∧ 0 < d) ∨ (b < 0 ∧ d < 0)) :
    (applyFill cfg s m sd (ENum.num q) (ENum.num p) lv).positions m =
      some ⟨if 0 < b + d then PosSide.long
            else if b + d < 0 then PosSide.short else PosSide.flat,
            ENum.num (b + d),
            ENum.num (if b + d = 0 then 0 else (|b| * e + |d| * p) / |b + d|),
            lv, pos.realizedPnl⟩ := by
  rw [applyFill_positions_of_some cfg s m sd (ENum.num q) (ENum.num p) lv pos
    hpos]
  have hsd : (if sd = Side.buy then ENum.num 1 else ENum.num (-1)) * ENum.num q
      = ENum.num d := by
    cases sd <;> simp_all [neg_one_mul]
  rcases hdir with hb0 | ⟨hb1, hd1⟩ | ⟨hb1, hd1⟩
  · subst hb0
    by_cases hz : d = 0 <;> simp [fillPos, hsd, hb, he, hz, abs_eq_zero]
  · have hbd : 0 < b + d := add_pos hb1 hd1
    simp [fillPos, hsd, hb, he, hb1, hb1.ne', hd1, hbd, hbd.ne', abs_eq_zero]
  · have hbd : b + d < 0 := add_neg hb1 hd1
    simp [fillPos, hsd, hb, he, hb1, hb1.ne, hd1, hbd, hbd.ne, abs_eq_zero,
      hb1.not_lt, hd1.not_lt, hbd.not_lt]

/-- Witness for claim C6: buy 10 at 120 on top of long 10 at entry 100
gives entry 110 and base 20. -/
theorem applyFill_same_direction_avg_entry_witness :
    (applyFill cfg0 (onePosState posLong10) "BTC_USD" Side.buy (ENum.num 10)
        (ENum.num 120) (ENum.num 2)).positions "BTC_USD" =
      some ⟨PosSide.long, ENum.num 20, ENum.num 110, ENum.num 2,
            ENum.num 0⟩ := by
  have h := applyFill_same_direction_avg_entry cfg0 (onePosState posLong10)
    "BTC_USD" Side.buy posLong10 (ENum.num 2) 10 120 10 100 10
    (by simp [onePosState]) rfl rfl (by simp) (by norm_num)
  rw [h]
  norm_num [posLong10]

/-! ## Claim C7: open-then-close round trip

The claim as frozen says the round trip always yields `realized_pnl == 0`
for every starting flat position.  A flat position can carry realized PnL
from earlier trades, which the round trip preserves rather than zeroes;
the counterexample below starts from a flat position with realized PnL 1.
The amended claim: the round trip leaves `realized_pnl` unchanged (hence 0
from a fresh position) and the position flat with `entry_price == 0`. -/

/-- Counterexample to claim C7 as frozen: a flat position with prior
realized PnL 1 still has realized PnL 1 (not 0) after buying 2 at 100 and
selling 2 at 100. -/
theorem round_trip_keeps_prior_realized :
    (applyFill cfg0
        (applyFill cfg0 (onePosState posFlatPnl1) "BTC_USD" Side.buy
          (ENum.num 2) (ENum.num 100) (ENum.num 2))
        "BTC_USD" Side.sell (ENum.num 2) (ENum.num 100)
        (ENum.num 2)).positions "BTC_USD" =
      some ⟨PosSide.flat, ENum.num 0, ENum.num 0, ENum.num 2, ENum.num 1⟩ ∧
    ENum.num 1 ≠ ENum.num 0 := by
  constructor
  · have h1 := applyFill_positions_of_some cfg0 (onePosState posFlatPnl1)
      "BTC_USD" Side.buy (ENum.num 2) (ENum.num 100) (ENum.num 2) posFlatPnl1
      (by simp [onePosState])
    rw [applyFill_positions_of_some cfg0 _ "BTC_USD" Side.sell (ENum.num 2)
      (ENum.num 100) (ENum.num 2) _ h1]
    norm_num [fillPos, posFlatPnl1]
  · simp

/-- Claim C7 (amended): opening with any quantity at any price from a flat
position and then closing the same quantity in the opposite direction at
the same price leaves the position flat with entry price 0 and the
realized PnL exactly as it started. -/
theorem applyFill_round_trip (cfg : Config) (s : State) (m : Market)
    (pos : Position) (e r q p : ℚ) (lv : ENum) (sd sd' : Side)
    (hside : sd ≠ sd')
    (hpos : s.positions m = some pos) (hb : pos.base = ENum.num 0)
    (he : pos.entry = ENum.num e) (hr : pos.realizedPnl = ENum.num r) :
    (applyFill cfg (applyFill cfg s m sd (ENum.num q) (ENum.num p) lv) m sd'
        (ENum.num q) (ENum.num p) lv).positions m =
      some ⟨PosSide.flat, ENum.num 0, ENum.num 0, lv, ENum.num r⟩ := by
  have h1 := applyFill_positions_of_some cfg s m sd (ENum.num q) (ENum.num p)
    lv pos hpos
  rw [applyFill_positions_of_some cfg _ m sd' (ENum.num q) (ENum.num p) lv
    (fillPos pos sd (ENum.num q) (ENum.num p) lv) h1]
  cases sd <;> cases sd' <;> try exact absurd rfl hside
  all_goals
    rcases lt_trichotomy q 0 with hq | hq | hq
  · simp [fillPos, hb, he, hr, hq, hq.ne, hq.not_lt, abs_of_neg hq,
      abs_eq_zero, mul_div_cancel_left₀, neg_ne_zero]
  · subst hq; simp [fillPos, hb, he, hr]
  · simp [fillPos, hb, he, hr, hq, hq.ne', hq.not_lt, abs_of_pos hq,
      abs_eq_zero, mul_div_cancel_left₀]
  · simp [fillPos, hb, he, hr, hq, hq.ne, hq.not_lt, abs_of_neg hq,
      abs_eq_zero, mul_div_cancel_left₀, neg_ne_zero]
  · subst hq; simp [fillPos, hb, he, hr]
  · simp [fillPos, hb, he, hr, hq, hq.ne', hq.not_lt, abs_of_pos hq,
      abs_eq_zero, mul_div_cancel_left₀]

/-- Witness for the amended claim C7: buy 3 at 50 then sell 3 at 50 on a
fresh flat position ends flat with entry 0 and realized PnL 0. -/
theorem applyFill_round_trip_witness :
    (applyFill cfg0
        (applyFill cfg0 (onePosState posFlat0) "BTC_USD" Side.buy
          (ENum.num 3) (ENum.num 50) (ENum.num 2))
        "BTC_USD" Side.sell (ENum.num 3) (ENum.num 50)
        (ENum.num 2)).positions "BTC_USD" =
      some ⟨PosSide.flat, ENum.num 0, ENum.num 0, ENum.num 2, ENum.num 0⟩ :=
  applyFill_round_trip cfg0 (onePosState posFlat0) "BTC_USD" posFlat0 0 0 3 50
    (ENum.num 2) Side.buy Side.sell (by simp) (by simp [onePosState]) rfl rfl
    rfl

/-! ## Claims C1, C2, C3: the inverted sign test in the reduce branch

In the source, after `pos.base += baseDelta` the reduce branch tests
`Math.sign(pos.base) !== Math.sign(reduce)` to decide whether the fill
flipped through zero.  After a genuine flip the new base has the SAME
sign as `reduce`, and after a partial reduce it has the opposite sign, so
the test is inverted: partial reduces take the re-open branch (entry and
leverage are overwritten with the fill's) and flips take the no-op branch
(side, entry and leverage keep their pre-flip values, leaving `side` as
`long` on a negative base).  The three theorems below evaluate the code
at the failing inputs. -/

/-- Claim C2 failing input: long 10 at entry 100, sell 4 at 110 with
leverage 3.  Realized PnL 40 and base 6 agree with the claim, but the code
rewrites the entry price to the fill price 110 (and the leverage to 3)
instead of keeping entry 100. -/
theorem applyFill_partial_reduce_rewrites_entry :
    (applyFill cfg0 (onePosState posLong10) "BTC_USD" Side.sell (ENum.num 4)
        (ENum.num 110) (ENum.num 3)).positions "BTC_USD" =
      some ⟨PosSide.long, ENum.num 6, ENum.num 110, ENum.num 3,
            ENum.num 40⟩ := by
  rw [applyFill_positions_of_some cfg0 (onePosState posLong10) "BTC_USD"
    Side.sell (ENum.num 4) (ENum.num 110) (ENum.num 3) posLong10
    (by simp [onePosState])]
  norm_num [fillPos, posLong10]

/-- Claim C1 failing input: long 5 at entry 100 (leverage 2), sell 8 at 90
with leverage 3.  The claim requires a short 3 position re-opened at entry
90 with leverage 3; the code books the realized PnL -50 and the base -3
but keeps side `long`, entry 100 and leverage 2. -/
theorem applyFill_flip_keeps_old_position :
    (applyFill cfg0 (onePosState posLong5) "BTC_USD" Side.sell (ENum.num 8)
        (ENum.num 90) (ENum.num 3)).positions "BTC_USD" =
      some ⟨PosSide.long, ENum.num (-3), ENum.num 100, ENum.num 2,
            ENum.num (-50)⟩ := by
  rw [applyFill_positions_of_some cfg0 (onePosState posLong5) "BTC_USD"
    Side.sell (ENum.num 8) (ENum.num 90) (ENum.num 3) posLong5
    (by simp [onePosState])]
  norm_num [fillPos, posLong5]

/-- Claim C3 failing input: from a fresh ledger, buy 5 at 100 then sell 8
at 90 on one market.  The resulting stored side is `long` while the base
quantity is -3 < 0, violating the side/sign invariant the claim states. -/
theorem applyFill_side_sign_mismatch :
    (applyFill cfg0
        (applyFill cfg0 emptyState "BTC_USD" Side.buy (ENum.num 5)
          (ENum.num 100) (ENum.num 2))
        "BTC_USD" Side.sell (ENum.num 8) (ENum.num 90)
        (ENum.num 2)).positions "BTC_USD" =
      some ⟨PosSide.long, ENum.num (-3), ENum.num 100, ENum.num 2,
            ENum.num (-50)⟩ ∧
    ((-3 : ℚ) < 0 ∧ PosSide.long ≠ PosSide.short) := by
  refine ⟨?_, by norm_num, by simp⟩
  have h1 : (applyFill cfg0 emptyState "BTC_USD" Side.buy (ENum.num 5)
      (ENum.num 100) (ENum.num 2)).positions "BTC_USD" =
      some ⟨PosSide.long, ENum.num 5, ENum.num 100, ENum.num 2,
            ENum.num 0⟩ := by
    rw [applyFill_positions_self]
    have he : (ensurePos cfg0 emptyState "BTC_USD").1 =
        ⟨PosSide.flat, ENum.num 0, ENum.num 0, ENum.num 2, ENum.num 0⟩ := by
      simp [ensurePos, emptyState, initialState, cfg0]
    rw [he]
    norm_num [fillPos]
  rw [applyFill_positions_of_some cfg0 _ "BTC_USD" Side.sell (ENum.num 8)
    (ENum.num 90) (ENum.num 2) _ h1]
  norm_num [fillPos]

/-! ## Claim C8: `mark` semantics

The claim as frozen says every supplied price overwrites the stored one.
The source tests the supplied price for truthiness (`if (price)`), so a
supplied price of 0 (or `NaN`) is ignored and the previously stored value
is returned unchanged.  Amended: a supplied truthy price overwrites and
is returned; an omitted or falsy price leaves the store unchanged and the
stored value (possibly absent) is returned. -/

/-- Counterexample to claim C8 as frozen: with price 7 stored, supplying
price 0 does not overwrite it; `mark` returns the old 7 and leaves the
state untouched. -/
theorem mark_zero_price_ignored :
    mark price7State "BTC_USD" (some (ENum.num 0)) =
      (some (ENum.num 7), price7State) ∧
    some (ENum.num 7) ≠ some (ENum.num 0) :=
  ⟨rfl, by simp⟩

/-- Claim C8 (amended): a supplied truthy price is stored and returned; an
omitted price, or a supplied falsy one (0 or NaN), leaves the state
unchanged and the stored value (possibly absent) is returned. -/
theorem mark_truthy_price_spec (s : State) (m : Market) (p p' : ENum)
    (h : p.truthy = true) (h' : p'.truthy = false) :
    mark s m (some p) = (some p, setLastPrice s m p) ∧
    mark s m none = (s.lastPrice m, s) ∧
    mark s m (some p') = (s.lastPrice m, s) := by
  refine ⟨?_, rfl, ?_⟩
  · simp [mark, h, setLastPrice]
  · simp [mark, h']

/-- Witness for the amended claim C8 at price 5 (truthy) and 0 (falsy). -/
theorem mark_truthy_price_spec_witness :
    mark price7State "BTC_USD" (some (ENum.num 5)) =
      (some (ENum.num 5), setLastPrice price7State "BTC_USD" (ENum.num 5)) ∧
    mark price7State "BTC_USD" none =
      (price7State.lastPrice "BTC_USD", price7State) ∧
    mark price7State "BTC_USD" (some (ENum.num 0)) =
      (price7State.lastPrice "BTC_USD", price7State) :=
  mark_truthy_price_spec price7State "BTC_USD" (ENum.num 5) (ENum.num 0)
    (by decide) (by decide)

/-! ## Claim C9: the cash balance is never touched -/

/-- Claim C9: every `placeOrder` call, accepted or rejected, leaves the
cash balance exactly as it was: opening never debits it and realized PnL
never credits or debits it; it only feeds the notional cap. -/
theorem placeOrder_preserves_cash (cfg : Config) (s : State) (ts : ENum)
    (params : OrderParams) :
    ((placeOrder cfg s ts params).2).usdc = s.usdc := by
  simp only [placeOrder]
  split
  · simp
  · split
    · simp
    · split
      · simp
      · simp

/-! ## Claim C10: an order never touches other markets -/

/-- Claim C10: a `placeOrder` call on one market, whether it succeeds or
is rejected, leaves the position and the stored last price of every other
market unchanged. -/
theorem placeOrder_other_markets_frame (cfg : Config) (s : State) (ts : ENum)
    (params : OrderParams) (m' : Market) (h : m' ≠ params.market) :
    ((placeOrder cfg s ts params).2).positions m' = s.positions m' ∧
    ((placeOrder cfg s ts params).2).lastPrice m' = s.lastPrice m' := by
  refine ⟨?_, ?_⟩ <;>
    (simp only [placeOrder]
     split
     · simp [mark_snd_lastPrice_ne, h]
     · split
       · simp [mark_snd_lastPrice_ne, h]
       · split
         · simp [mark_snd_lastPrice_ne, h]
         · simp [applyFill_positions_ne, mark_snd_lastPrice_ne, h])

/-- Witness for claim C10: an accepted buy on `BTC_USD` leaves the
`ETH_USD` position and mark price untouched. -/
theorem placeOrder_other_markets_frame_witness :
    ((placeOrder cfg0 ethState (ENum.num 0) paramsBuy1).2).positions
        "ETH_USD" = ethState.positions "ETH_USD" ∧
    ((placeOrder cfg0 ethState (ENum.num 0) paramsBuy1).2).lastPrice
        "ETH_USD" = ethState.lastPrice "ETH_USD" :=
  placeOrder_other_markets_frame cfg0 ethState (ENum.num 0) paramsBuy1
    "ETH_USD" (by simp [paramsBuy1])

/-! ## Claim C4: rejections and the ledger state

The claim as frozen says a rejected `placeOrder` call leaves the entire
ledger state unchanged.  The source calls `mark(market, price)` BEFORE
any validation, so a rejected call that supplied a truthy price has
already stored it in `last_price`.  Amended: a rejection leaves the cash
balance, the positions map and the trade history unchanged, and the final
state is exactly the post-mark state (so only `last_price[market]` may
have been updated, with the supplied truthy price). -/

/-- Counterexample to claim C4 as frozen: an order with price 50 but no
quantity is rejected with the invalid-quantity rejection, yet the mark
price for its market changed from absent to 50. -/
theorem placeOrder_reject_updates_lastPrice :
    (placeOrder cfg0 emptyState (ENum.num 0) paramsNoQty).1 =
      Except.error Rejection.invalidQty ∧
    ((placeOrder cfg0 emptyState (ENum.num 0) paramsNoQty).2).lastPrice
        "BTC_USD" = some (ENum.num 50) ∧
    emptyState.lastPrice "BTC_USD" = none :=
  ⟨rfl, rfl, rfl⟩

/-- Every rejected `placeOrder` call ends in exactly the post-mark state. -/
theorem placeOrder_snd_of_error (cfg : Config) (s : State) (ts : ENum)
    (params : OrderParams) (r : Rejection)
    (h : (placeOrder cfg s ts params).1 = Except.error r) :
    (placeOrder cfg s ts params).2 =
      (mark s params.market params.price).2 := by
  simp only [placeOrder] at h ⊢
  split
  · rfl
  · split
    · rfl
    · split
      · rfl
      · rename_i h1 h2 h3
        rw [if_neg h1, if_neg h2, if_neg h3] at h
        simp at h

/-- Claim C4 (amended): a rejected `placeOrder` call leaves the cash
balance, positions map and trade history unchanged; the whole final state
is the post-mark state, so only the supplied truthy price may have been
recorded under the order's market. -/
theorem placeOrder_reject_frame (cfg : Config) (s : State) (ts : ENum)
    (params : OrderParams) (r : Rejection)
    (h : (placeOrder cfg s ts params).1 = Except.error r) :
    (placeOrder cfg s ts params).2 =
      (mark s params.market params.price).2 ∧
    ((placeOrder cfg s ts params).2).usdc = s.usdc ∧
    ((placeOrder cfg s ts params).2).positions = s.positions ∧
    ((placeOrder cfg s ts params).2).trades = s.trades := by
  have hsnd := placeOrder_snd_of_error cfg s ts params r h
  refine ⟨hsnd, ?_, ?_, ?_⟩ <;> rw [hsnd] <;> simp

/-- Witness for the amended claim C4: the rejected no-quantity order
leaves cash, positions and trades untouched. -/
theorem placeOrder_reject_frame_witness :
    ((placeOrder cfg0 emptyState (ENum.num 1) paramsNoQty).2).usdc =
        emptyState.usdc ∧
    ((placeOrder cfg0 emptyState (ENum.num 1) paramsNoQty).2).positions =
        emptyState.positions ∧
    ((placeOrder cfg0 emptyState (ENum.num 1) paramsNoQty).2).trades =
        emptyState.trades :=
  (placeOrder_reject_frame cfg0 emptyState (ENum.num 1) paramsNoQty
    Rejection.invalidQty rfl).2

/-! ## Claim C5: which quantities get the invalid-quantity rejection

The claim as frozen says the invalid-quantity rejection fires exactly
when the resolved quantity is not a finite positive number.  The source
test is `!qty || qty <= 0`, which a resolved quantity of `Infinity`
passes (it is truthy and not `<= 0`); such an order falls through to the
notional check and is rejected there instead whenever the cap is finite.
Amended: with a resolvable truthy price, the invalid-quantity rejection
fires iff the resolved quantity is falsy (0 or NaN) or `<= 0`. -/

/-- Counterexample to claim C5 as frozen: `sizeUsd = Infinity` at price
100 resolves to the non-finite quantity `Infinity`, yet the order is
rejected with the notional-limit rejection, not the invalid-quantity
one. -/
theorem placeOrder_infinite_qty_not_invalid :
    resolvedQty paramsInfUsd (ENum.num 100) = ENum.inf ∧
    ENum.inf.isFinite = false ∧
    (placeOrder cfg0 emptyState (ENum.num 0) paramsInfUsd).1 =
      Except.error Rejection.notionalLimit ∧
    Rejection.notionalLimit ≠ Rejection.invalidQty :=
  ⟨rfl, rfl, rfl, by simp⟩

/-- Claim C5 (amended): when the price resolves to a truthy value, a
`placeOrder` call is rejected with the invalid-quantity rejection iff the
resolved quantity fails the source's own test — it is falsy (0 or NaN) or
`<= 0`.  (`Infinity` passes that test and is not rejected as invalid.) -/
theorem placeOrder_invalidQty_iff (cfg : Config) (s : State) (ts : ENum)
    (params : OrderParams)
    (h : jsNumTruthy (mark s params.market params.price).1 = true) :
    (placeOrder cfg s ts params).1 = Except.error Rejection.invalidQty ↔
      ((resolvedQty params
          ((mark s params.market params.price).1.getD (ENum.num 0))).truthy
          = false ∨
       (resolvedQty params
          ((mark s params.market params.price).1.getD (ENum.num 0))).jsLe
          (ENum.num 0) = true) := by
  simp only [placeOrder, h, Bool.not_true, Bool.false_eq_true, if_false]
  split
  · rename_i hq
    simp only [Bool.or_eq_true, Bool.not_eq_true'] at hq
    simp [hq]
  · rename_i hq
    simp only [Bool.or_eq_true, Bool.not_eq_true', not_or] at hq
    push_neg at hq
    split <;> simp [hq.1, hq.2]

/-- Witness for the amended claim C5: the no-quantity order (resolved
quantity 0, falsy) satisfies the equivalence. -/
theorem placeOrder_invalidQty_iff_witness :
    ((placeOrder cfg0 emptyState (ENum.num 2) paramsNoQty).1 =
        Except.error Rejection.invalidQty ↔
      ((resolvedQty paramsNoQty
          ((mark emptyState paramsNoQty.market paramsNoQty.price).1.getD
            (ENum.num 0))).truthy = false ∨
       (resolvedQty paramsNoQty
          ((mark emptyState paramsNoQty.market paramsNoQty.price).1.getD
            (ENum.num 0))).jsLe (ENum.num 0) = true)) :=
  placeOrder_invalidQty_iff cfg0 emptyState (ENum.num 2) paramsNoQty rfl

end Paper
